import Mathlib

/-!
# Model of `tcp-broadcast` (`src/main.rs`)

Shallow embedding of the core `run` function of the TCP fan-out relay.

The program (lines 35–115 of `src/main.rs`):
* parses the remote address, connects to it, parses the local address and
  binds a listener — each step aborts by `.expect(...)` (a panic) on failure;
* then loops over `tokio::select!` with three branches: cancellation
  (`break`, then `Ok(())` is returned), a completed source read
  (`Ok(n) = read`), and a completed accept (`Ok((stream, _))`).

On a read of `n` bytes the code appends them to the staging `BytesMut`
`buffer` and, for every sink in order, runs
`let mut data = buffer.split_to(n).freeze();` — note: *inside* the per-sink
loop — followed by a write loop
`while m < n { m += match writer.write_buf(&mut data).await { ... } }` that
records the sink's index in `failed_sink_indexes` on `Err(_)` or `Ok(0)`.
After the loop, `for index in failed_sink_indexes { sinks.remove(index); }`.

The embedding:
* bytes are `Nat`, the staging buffer a `List` of bytes (`BytesMut` contents
  front to back; `read_buf` appends at the back, `split_to` takes from the
  front and panics when asked for more bytes than the buffer holds);
* sinks carry an `id`, the bytes delivered to them so far, and a `behavior`
  oracle giving the result of each successive `write_buf` call on this sink
  (the environment's choice); a reported `Ok k` can hand over at most the
  bytes remaining in `data`, so the effective count is `min k data.length`;
* one loop iteration services exactly one `select!` event (`Event`);
  branches whose future completes with `Err` never fire their arm
  (`Ok(n) = read` / `Ok((stream, _)) = listener.accept()` are refutable
  patterns), so only successful reads and accepts appear as events;
* a Rust panic (`split_to` out of bounds, `Vec::remove` out of bounds) is
  modeled as `Option.none` propagated to the outcome `RunResult.panicked`.
-/

/-- A byte value. -/
abbrev Byte := Nat

/-- Result of one `writer.write_buf(&mut data).await` call:
`Err(_)` or `Ok(k)` bytes consumed. -/
inductive WriteRes where
  | err : WriteRes
  | ok (k : Nat) : WriteRes
deriving Repr, DecidableEq

/-- One downstream client connection (`TcpStream` stored in `sinks`).
`behavior j` is the environment-chosen result of the `j`-th `write_buf`
call ever issued to this sink; `calls` counts the calls issued so far;
`received` is the byte sequence delivered to the sink so far. -/
structure Sink where
  id : Nat
  behavior : Nat → WriteRes
  calls : Nat
  received : List Byte

/-- The per-sink write loop of `run` (`src/main.rs` lines 80–99):
`let mut m = 0; while m < n { m += match writer.write_buf(&mut data).await
{ Err(e) => { ...; failed_sink_indexes.push(index); break }, Ok(0) =>
{ failed_sink_indexes.push(index); break }, Ok(m) => m } }`.

`data` holds the not-yet-written tail (initially the `n`-byte slice), so
`m < n` is exactly `data ≠ []`. Returns the updated call counter, the bytes
delivered to the sink by this loop, and whether the sink was recorded as
failed. An `ok k` result consumes `min k data.length` bytes of `data`. -/
def writeLoop (beh : Nat → WriteRes) (calls : Nat) : List Byte → Nat × List Byte × Bool
  | [] => (calls, [], false)
  | d :: ds =>
    match beh calls with
    | WriteRes.err => (calls + 1, [], true)
    | WriteRes.ok k =>
      if min k (d :: ds).length = 0 then (calls + 1, [], true)
      else
        ((writeLoop beh (calls + 1) ((d :: ds).drop (min k (d :: ds).length))).1,
         (d :: ds).take (min k (d :: ds).length) ++
           (writeLoop beh (calls + 1) ((d :: ds).drop (min k (d :: ds).length))).2.1,
         (writeLoop beh (calls + 1) ((d :: ds).drop (min k (d :: ds).length))).2.2)
termination_by l => l.length
decreasing_by
  all_goals
    simp only [List.length_drop, List.length_cons]
    omega

/-- The broadcast pass over the sinks (`src/main.rs` lines 75–101):
`for (index, sink) in sinks.iter_mut().enumerate() { let mut data =
buffer.split_to(n).freeze(); ... }`. `split_to(n)` panics (`none`) when the
buffer holds fewer than `n` bytes; otherwise it removes the first `n` bytes
from the buffer and hands them to this sink's write loop. Returns the
remaining buffer, the updated sinks, and `failed_sink_indexes` in push
order. -/
def broadcastSinks (n : Nat) : List Byte → List Sink → Nat → Option (List Byte × List Sink × List Nat)
  | buffer, [], _ => some (buffer, [], [])
  | buffer, s :: rest, index =>
    if n ≤ buffer.length then
      let r := writeLoop s.behavior s.calls (buffer.take n)
      let s' : Sink := { s with calls := r.1, received := s.received ++ r.2.1 }
      match broadcastSinks n (buffer.drop n) rest (index + 1) with
      | none => none
      | some (b, ss, fs) => some (b, s' :: ss, if r.2.2 then index :: fs else fs)
    else none

/-- The prune step (`src/main.rs` lines 103–105):
`for index in failed_sink_indexes { sinks.remove(index); }` — each removal
is applied to the *current* vector at the *original* index; `Vec::remove`
panics (`none`) when the index is out of bounds. -/
def removeFailed : List Sink → List Nat → Option (List Sink)
  | sinks, [] => some sinks
  | sinks, i :: is =>
    if i < sinks.length then removeFailed (sinks.eraseIdx i) is else none

/-- State of the loop: the staging `BytesMut` and the `sinks` vector. -/
structure LoopState where
  buffer : List Byte
  sinks : List Sink

/-- The whole `Ok(n) = read` branch body for a read that appended `bs`
(with `n = bs.length`) to the buffer: broadcast to every sink, then remove
the failed indexes. -/
def broadcastRound (st : LoopState) (bs : List Byte) : Option LoopState :=
  match broadcastSinks bs.length (st.buffer ++ bs) st.sinks 0 with
  | none => none
  | some (b, ss, fs) =>
    match removeFailed ss fs with
    | none => none
    | some ss' => some { buffer := b, sinks := ss' }

/-- One `select!` resolution: which branch fired this iteration. -/
inductive Event where
  | cancel : Event
  | read (bytes : List Byte) : Event
  | accept (s : Sink) : Event

/-- Outcome of `run`. `retOk` is the `Ok(())` return (the model also keeps
the final state for inspection); `retErr` is an `Err(_)` return — present
because `run`'s Rust type is `Result<()>` — `panicked` a Rust panic, and
`running` means the event trace was exhausted with the loop still
waiting. -/
inductive RunResult where
  | retOk (final : LoopState) : RunResult
  | retErr : RunResult
  | panicked : RunResult
  | running (st : LoopState) : RunResult

/-- The event loop of `run` (`src/main.rs` lines 63–112): each iteration
services exactly one event; cancellation breaks out of the loop and `run`
returns `Ok(())`; a read runs a broadcast round; an accept pushes the new
stream onto `sinks`. -/
def runLoop : LoopState → List Event → RunResult
  | st, [] => RunResult.running st
  | st, Event.cancel :: _ => RunResult.retOk st
  | st, Event.read bs :: rest =>
    match broadcastRound st bs with
    | none => RunResult.panicked
    | some st' => runLoop st' rest
  | st, Event.accept s :: rest => runLoop { st with sinks := st.sinks ++ [s] } rest

/-- Which of the four startup steps of `run` (`src/main.rs` lines 42–58)
succeed: remote address parse, `TcpStream::connect`, local address parse,
`TcpListener::bind`. -/
structure StartupEnv where
  remoteAddrParses : Bool
  sourceConnects : Bool
  localAddrParses : Bool
  listenerBinds : Bool

/-- The whole of `run`: the four startup steps each abort by
`.expect(...)` — a panic, not an `Err` return — and only then does the
loop start with an empty buffer and no sinks. -/
def runModel (env : StartupEnv) (events : List Event) : RunResult :=
  if env.remoteAddrParses = false then RunResult.panicked
  else if env.sourceConnects = false then RunResult.panicked
  else if env.localAddrParses = false then RunResult.panicked
  else if env.listenerBinds = false then RunResult.panicked
  else runLoop { buffer := [], sinks := [] } events

/-- `true` iff the outcome is an `Err(_)` value returned to the caller. -/
def isRetErr : RunResult → Bool
  | RunResult.retErr => true
  | _ => false

/-- The ids of the sinks held in the final state, when there is one. -/
def finalSinkIds : RunResult → List Nat
  | RunResult.retOk st => st.sinks.map Sink.id
  | RunResult.running st => st.sinks.map Sink.id
  | _ => []

/-- The byte sequences delivered to each sink of the final state. -/
def finalReceived : RunResult → List (List Byte)
  | RunResult.retOk st => st.sinks.map Sink.received
  | RunResult.running st => st.sinks.map Sink.received
  | _ => []

/-- Staging-buffer contents in the final state. -/
def finalBuffer : RunResult → List Byte
  | RunResult.retOk st => st.buffer
  | RunResult.running st => st.buffer
  | _ => []

/-- A sink whose peer accepts every write: each `write_buf` call consumes
everything offered (1024 bounds any slice the loop stages). -/
def healthySink (i : Nat) : Sink :=
  { id := i, behavior := fun _ => WriteRes.ok 1024, calls := 0, received := [] }

/-- A sink whose peer has gone away: every `write_buf` call returns
`Err(_)`. -/
def failingSink (i : Nat) : Sink :=
  { id := i, behavior := fun _ => WriteRes.err, calls := 0, received := [] }

/-! ## Evaluation lemmas for the write loop -/

/-- A sink that accepts everything consumes a two-byte slice in one
`write_buf` call and is not marked failed. -/
theorem wl_ok_pair (c : Nat) (a b : Byte) :
    writeLoop (fun _ => WriteRes.ok 1024) c [a, b] = (c + 1, [a, b], false) := by
  simp [writeLoop]

/-- A sink whose writes error is marked failed on the first call and
receives nothing. -/
theorem wl_err_pair (c : Nat) (a b : Byte) :
    writeLoop (fun _ => WriteRes.err) c [a, b] = (c + 1, [], true) := by
  simp [writeLoop]

/-- `runLoop` never produces an `Err(_)` return: the loop's only exit is
the cancellation `break` followed by `Ok(())`. -/
theorem isRetErr_runLoop (st : LoopState) (evs : List Event) :
    isRetErr (runLoop st evs) = false := by
  induction evs generalizing st with
  | nil => rfl
  | cons e rest ih =>
    cases e with
    | cancel => rfl
    | read bs =>
      simp only [runLoop]
      cases broadcastRound st bs with
      | none => rfl
      | some st2 => exact ih st2
    | accept s => exact ih _

/-! ## Claims -/

/-- C1: the claim says that in a round whose read produced `n > 0` bytes,
every sink present at the start of the round is written the entire
`n`-byte slice. The code refutes it: `buffer.split_to(n)` sits *inside*
the per-sink loop, so the first sink drains the staged bytes and the call
for the second sink panics (`split_to` out of bounds). Here: two healthy
sinks, empty staging buffer, a read of `[1, 2]` — the round panics and the
second sink is never written the slice. -/
theorem c1_second_sink_split_panics :
    runLoop ⟨[], []⟩
      [Event.accept (healthySink 0), Event.accept (healthySink 1), Event.read [1, 2]]
      = RunResult.panicked := by
  simp [runLoop, broadcastRound, broadcastSinks, removeFailed, healthySink, wl_ok_pair]

/-- C2: the claim says exactly the failed sinks are removed and every
non-failed sink remains, also when several fail in one round. The code
removes a pre-computed index list sequentially against the shifting
vector: with sinks `0, 1, 2` where `0` and `1` fail (stale bytes
`[9, 9, 9, 9]` keep `split_to` from panicking), `remove(0)` then
`remove(1)` deletes sinks `0` and `2`, so the surviving set is the
*failed* sink `1` — the claim demands `[2]`. -/
theorem c2_index_shift_removes_wrong_sink :
    finalSinkIds (runLoop ⟨[9, 9, 9, 9], [failingSink 0, failingSink 1, healthySink 2]⟩
      [Event.read [1, 2]]) = [1] ∧
    finalSinkIds (runLoop ⟨[9, 9, 9, 9], [failingSink 0, failingSink 1, healthySink 2]⟩
      [Event.read [1, 2]]) ≠ [2] := by
  constructor <;>
    simp [runLoop, broadcastRound, broadcastSinks, removeFailed, healthySink, failingSink,
      wl_ok_pair, wl_err_pair, finalSinkIds, List.eraseIdx]

/-- C3: the claim says the broadcast-and-prune step never raises a
propagating error or panic, for any number of sinks and any subset
failing. Refuted: with two sinks that both fail in the same round,
`failed_sink_indexes = [0, 1]`; after `remove(0)` the vector has length 1,
and `remove(1)` panics (index out of bounds). -/
theorem c3_double_failure_remove_panics :
    runLoop ⟨[9, 9, 9, 9], [failingSink 0, failingSink 1]⟩ [Event.read [1, 2]]
      = RunResult.panicked := by
  simp [runLoop, broadcastRound, broadcastSinks, removeFailed, failingSink,
    wl_err_pair, List.eraseIdx]

/-- C4: the claim says a client accepted after `N` bytes have been read
receives none of those bytes. Refuted: a read served while no sink is
connected leaves its bytes in the staging buffer (`split_to` is only
called per sink), and the next round's `split_to(n)` hands exactly those
stale bytes to the newly accepted client: after `read [1, 2]`, `accept`,
`read [3, 4]`, the late client has received `[1, 2]` — precisely the bytes
read before its acceptance — and not `[3, 4]`. -/
theorem c4_late_client_receives_earlier_bytes :
    finalReceived (runLoop ⟨[], []⟩
      [Event.read [1, 2], Event.accept (healthySink 7), Event.read [3, 4]])
      = [[1, 2]] := by
  simp [runLoop, broadcastRound, broadcastSinks, removeFailed, healthySink,
    wl_ok_pair, finalReceived]

/-- C5: the claim says the transfer buffer is emptied after every
broadcast round, including rounds with no sinks. Refuted: the buffer is
only drained by the per-sink `split_to` calls, so a round with an empty
`SinkSet` leaves the read's bytes in the buffer: after one `read [1, 2]`
with no sinks the buffer still holds `[1, 2]`. -/
theorem c5_buffer_keeps_bytes_after_round :
    finalBuffer (runLoop ⟨[], []⟩ [Event.read [1, 2]]) = [1, 2] := by
  simp [runLoop, broadcastRound, broadcastSinks, removeFailed, finalBuffer]

/-- C6: once the cancellation branch fires, the loop performs no further
reads or accepts and `run` returns the success outcome. In the model: if
the trace `pre` leaves the loop running in state `st'`, then the trace
`pre ++ cancel :: post` returns `Ok(())` with exactly that state, for
*every* continuation `post` — the events after the cancellation are never
serviced, and each round in `pre` (a write in progress) ran to completion
because cancellation is only observed between iterations. -/
theorem c6_cancel_terminates_loop (st st' : LoopState) (pre post : List Event)
    (h : runLoop st pre = RunResult.running st') :
    runLoop st (pre ++ Event.cancel :: post) = RunResult.retOk st' := by
  induction pre generalizing st with
  | nil =>
    simp only [runLoop] at h
    injection h with h
    subst h
    rfl
  | cons e rest ih =>
    cases e with
    | cancel => simp [runLoop] at h
    | read bs =>
      simp only [runLoop, List.cons_append] at h ⊢
      cases hb : broadcastRound st bs with
      | none => rw [hb] at h; exact RunResult.noConfusion h
      | some st2 => rw [hb] at h; exact ih st2 h
    | accept s =>
      simp only [runLoop, List.cons_append] at h ⊢
      exact ih _ h

/-- C6 witness: after one accept the loop is still running; appending a
cancellation followed by a read shows the read is never serviced and the
run returns the success outcome. -/
theorem c6_cancel_terminates_loop_witness :
    runLoop ⟨[], []⟩ [Event.accept (healthySink 0)] = RunResult.running ⟨[], [healthySink 0]⟩ ∧
    runLoop ⟨[], []⟩ ([Event.accept (healthySink 0)] ++ Event.cancel :: [Event.read [1, 2]])
      = RunResult.retOk ⟨[], [healthySink 0]⟩ :=
  ⟨rfl, c6_cancel_terminates_loop _ _ _ _ rfl⟩

/-- C7 counterexample: the claim says a startup failure makes `run`
propagate a startup error to its caller. At a concrete input whose remote
address fails to parse, `run` panics (`.expect`) — the outcome is a panic,
not a returned error value. -/
theorem c7_startup_failure_is_panic_not_err :
    runModel ⟨false, true, true, true⟩ [Event.accept (healthySink 3)] = RunResult.panicked ∧
    isRetErr (runModel ⟨false, true, true, true⟩ [Event.accept (healthySink 3)]) = false := by
  constructor <;> simp [runModel, isRetErr]

/-- C7 (amended): if address resolution of either address, the outbound
connect, or the local bind fails, `run` fails fatally by *panicking*
(aborting; it does not return an error value), does not retry, and never
begins accepting clients — the outcome is `panicked` for every event
trace, so no accept or read is ever serviced. -/
theorem c7_startup_failure_aborts (env : StartupEnv) (events : List Event)
    (h : env.remoteAddrParses = false ∨ env.sourceConnects = false ∨
      env.localAddrParses = false ∨ env.listenerBinds = false) :
    runModel env events = RunResult.panicked := by
  rcases h with h | h | h | h <;> simp [runModel, h]

/-- C7 witness: a failed outbound connect aborts the run even though a
read event would have been available. -/
theorem c7_startup_failure_aborts_witness :
    runModel ⟨true, false, true, true⟩ [Event.read [1, 2]] = RunResult.panicked :=
  c7_startup_failure_aborts _ _ (Or.inr (Or.inl rfl))

/-- C8: the claim says a client in the set when a round begins receives
all of that round's payload or none of it, never a proper part. Refuted:
after a sink-less `read [9]` leaves a stale byte staged, a client is
accepted and the next round reads payload `[1, 2]`; `split_to(2)` hands
the client `[9, 1]` — it receives byte `1` of the round's payload but not
byte `2`, a proper partial view of the round. -/
theorem c8_sink_gets_partial_round_payload :
    finalReceived (runLoop ⟨[], []⟩
      [Event.read [9], Event.accept (healthySink 4), Event.read [1, 2]])
      = [[9, 1]] := by
  simp [runLoop, broadcastRound, broadcastSinks, removeFailed, healthySink,
    wl_ok_pair, finalReceived]

/-- C9: the per-sink write loop follows the claimed algorithm: (a) if the
sink is not recorded failed, the delivered bytes are exactly the staged
slice, in order (the loop ran until the full length was written); (b) if
the sink is recorded failed, the remaining bytes were abandoned — the
delivered bytes are a proper prefix of the slice; (c) an `Err(_)` result
and an `Ok(0)` result on a call are treated identically: the sink is
recorded failed at once, nothing further is delivered by that loop. -/
theorem c9_per_sink_write_algorithm (beh : Nat → WriteRes) (calls : Nat) (data : List Byte) :
    ((writeLoop beh calls data).2.2 = false → (writeLoop beh calls data).2.1 = data) ∧
    ((writeLoop beh calls data).2.2 = true →
      (writeLoop beh calls data).2.1.length < data.length ∧
      (writeLoop beh calls data).2.1 <+: data) ∧
    (data ≠ [] → beh calls = WriteRes.err ∨ beh calls = WriteRes.ok 0 →
      writeLoop beh calls data = (calls + 1, [], true)) := by
  induction calls, data using writeLoop.induct beh with
  | case1 calls =>
    refine ⟨fun _ => ?_, fun h => ?_, fun hne _ => absurd rfl hne⟩
    · simp [writeLoop]
    · simp [writeLoop] at h
  | case2 calls d ds herr =>
    have hunf : writeLoop beh calls (d :: ds) = (calls + 1, [], true) := by
      simp only [writeLoop, herr]
    refine ⟨fun h => ?_, fun _ => ?_, fun _ _ => hunf⟩
    · rw [hunf] at h; simp at h
    · rw [hunf]
      exact ⟨by simp, [d] ++ ds, rfl⟩
  | case3 calls d ds k hok hw =>
    have hunf : writeLoop beh calls (d :: ds) = (calls + 1, [], true) := by
      simp only [writeLoop, hok, if_pos hw]
    refine ⟨fun h => ?_, fun _ => ?_, fun _ _ => hunf⟩
    · rw [hunf] at h; simp at h
    · rw [hunf]
      exact ⟨by simp, [d] ++ ds, rfl⟩
  | case4 calls d ds k hok hw ih =>
    obtain ⟨ih1, ih2, _⟩ := ih
    have hunf : writeLoop beh calls (d :: ds) =
        ((writeLoop beh (calls + 1) ((d :: ds).drop (min k (d :: ds).length))).1,
         (d :: ds).take (min k (d :: ds).length) ++
           (writeLoop beh (calls + 1) ((d :: ds).drop (min k (d :: ds).length))).2.1,
         (writeLoop beh (calls + 1) ((d :: ds).drop (min k (d :: ds).length))).2.2) := by
      simp only [writeLoop, hok, if_neg hw]
    have hwle : min k (d :: ds).length ≤ (d :: ds).length := min_le_right _ _
    refine ⟨fun h => ?_, fun h => ?_, fun _ hc => ?_⟩
    · rw [hunf] at h ⊢
      simp only at h
      rw [ih1 h, List.take_append_drop]
    · rw [hunf] at h ⊢
      simp only at h
      obtain ⟨hlen, t, ht⟩ := ih2 h
      constructor
      · simp only [List.length_append, List.length_take, List.length_drop] at hlen ⊢
        omega
      · exact ⟨t, by rw [List.append_assoc, ht, List.take_append_drop]⟩
    · rcases hc with hc | hc
      · rw [hok] at hc; cases hc
      · rw [hok] at hc
        injection hc with hk
        subst hk
        simp at hw
/-- C9 witness: a healthy-sink loop on `[5, 6]` delivers exactly `[5, 6]`
(case a), and an erroring sink is recorded failed at once with nothing
delivered (cases b and c). -/
theorem c9_per_sink_write_algorithm_witness :
    (writeLoop (fun _ => WriteRes.ok 1024) 0 [5, 6]).2.1 = [5, 6] ∧
    writeLoop (fun _ => WriteRes.err) 0 [5, 6] = (0 + 1, [], true) := by
  constructor
  · exact (c9_per_sink_write_algorithm (fun _ => WriteRes.ok 1024) 0 [5, 6]).1
      (by simp [wl_ok_pair])
  · exact (c9_per_sink_write_algorithm (fun _ => WriteRes.err) 0 [5, 6]).2.2
      (by simp) (Or.inl rfl)

/-- C10: whenever `run` returns at all, it returns the success value:
startup failures abort by panic (`.expect`), and the loop's only exit is
the cancellation `break` followed by `Ok(())` — no execution returns an
`Err(_)` value to the caller. -/
theorem c10_run_never_returns_err (env : StartupEnv) (evs : List Event) :
    isRetErr (runModel env evs) = false := by
  unfold runModel
  split
  · rfl
  split
  · rfl
  split
  · rfl
  split
  · rfl
  exact isRetErr_runLoop _ _
